import Mathlib

/-!
Verification of the video-analyzer scoring core: a shallow embedding of
the narrative response parser (geminiAnalyzer.ts, processGeminiResponse),
the heuristic scorers (videoAnalyzer.ts, analyzeClarity ..
analyzePresentation), and the aggregation / suggestion stage
(calculateOverallScore, generateSuggestions), together with theorems about
the properties the specification states.

Modelling conventions: JavaScript strings are Lean `String`s, processed
through their character lists; JavaScript numbers are `Nat` for the
integer-valued category scores and `ℚ` for averages, weights and
confidences (all arithmetic the analyzed code performs on these values is
exact in binary floating point at the magnitudes that occur, except the
literal 0.2, modelled as 1/5, whose only observable use is whether
`trunc(len * 0.2)` is zero, where the float and rational computations
agree); `Math.round` is floor of x + 1/2, which matches its behavior on
the non-negative values that occur here.
-/

/-! ## JavaScript-style string primitives -/

/-- Whitespace test used by the embedding; covers the ASCII characters
matched by JavaScript trim / the regex class \s that can occur here. -/
def isWsChar (c : Char) : Bool :=
  c == ' ' || c == '\t' || c == '\n' || c == '\r' || c == '\x0b' || c == '\x0c'

/-- ASCII decimal digit test (the regex class \d). -/
def isDigitChar (c : Char) : Bool :=
  '0' ≤ c && c ≤ '9'

/-- ASCII lower-casing, the effect of JavaScript toLowerCase on the
ASCII text this program manipulates. -/
def asciiLower (c : Char) : Char :=
  if 'A' ≤ c ∧ c ≤ 'Z' then Char.ofNat (c.toNat + 32) else c

/-- String.toLowerCase. -/
def lowerStr (s : String) : String :=
  String.mk (s.data.map asciiLower)

/-- Drop leading whitespace. -/
def trimL (cs : List Char) : List Char :=
  cs.dropWhile isWsChar

/-- Drop trailing whitespace. -/
def trimR : List Char → List Char
  | [] => []
  | c :: t =>
    let t' := trimR t
    if t'.isEmpty then (if isWsChar c then [] else [c]) else c :: t'

/-- String.prototype.trim. -/
def jsTrim (s : String) : String :=
  String.mk (trimR (trimL s.data))

/-- Auxiliary splitter for split on a newline character. -/
def splitNlAux : List Char → List Char → List String
  | [], acc => [String.mk acc.reverse]
  | c :: t, acc =>
    if c == '\n' then String.mk acc.reverse :: splitNlAux t []
    else splitNlAux t (c :: acc)

/-- JavaScript s.split('\n'): every newline separates, the empty string
splits to one empty piece. -/
def splitNl (s : String) : List String :=
  splitNlAux s.data []

/-- Auxiliary splitter for split on the regex of whitespace runs: acc is
the current piece reversed, and the flag records being inside a
whitespace run (whose piece was already emitted). -/
def splitWsGo : List Char → List Char → Bool → List String
  | [], acc, _ => [String.mk acc.reverse]
  | c :: t, acc, inRun =>
    if isWsChar c then
      if inRun then splitWsGo t [] true
      else String.mk acc.reverse :: splitWsGo t [] true
    else splitWsGo t (c :: acc) false

/-- JavaScript s.split on a whitespace-run regex: maximal whitespace runs
separate; a leading or trailing run contributes an empty piece, and the
empty string yields one empty piece (so the result is never empty). -/
def splitWsJs (s : String) : List String :=
  splitWsGo s.data [] false

/-- Dropping a prefix never lengthens a list. -/
theorem dropWhileLengthLe {α : Type} (p : α → Bool) (l : List α) :
    (l.dropWhile p).length ≤ l.length := by
  induction l with
  | nil => simp [List.dropWhile]
  | cons c t ih =>
    by_cases h : p c
    · rw [List.dropWhile_cons, if_pos h]
      exact Nat.le_succ_of_le ih
    · rw [List.dropWhile_cons, if_neg h]

/-- Bool-valued prefix test on character lists. -/
def startsWithL : List Char → List Char → Bool
  | _, [] => true
  | [], _ :: _ => false
  | c :: t, p :: ps => c == p && startsWithL t ps

/-- Bool-valued substring test on character lists (JavaScript includes). -/
def containsL : List Char → List Char → Bool
  | [], pat => pat.isEmpty
  | c :: t, pat => startsWithL (c :: t) pat || containsL t pat

/-- String containment, JavaScript s.includes(pat). -/
def containsStr (s pat : String) : Bool :=
  containsL s.data pat.data

/-- Value of a run of decimal digit characters (parseInt on a digit run). -/
def natOfDigits (cs : List Char) : Nat :=
  cs.foldl (fun n c => 10 * n + (c.toNat - '0'.toNat)) 0

/-- Math.round(q * 10) / 10: rounding to one decimal place, with
Math.round modelled as floor of x + 1/2. -/
def round1 (q : ℚ) : ℚ :=
  ((⌊q * 10 + 1 / 2⌋ : ℤ) : ℚ) / 10

/-! ## Data model (interfaces CategoryAnalysis / VideoAnalysisResult) -/

/-- One review dimension of the report (interface CategoryAnalysis). -/
structure CategoryAnalysis where
  score : Nat
  details : List String
  goodPoints : List String
  improvementPoints : List String
deriving DecidableEq, Repr

/-- The six review dimensions, as a tagged enumeration of the six
string keys of VideoAnalysisResult. -/
inductive Category where
  | clarity
  | engagement
  | relevance
  | informativeContent
  | visualsAndAudio
  | presentation
deriving DecidableEq, Repr

/-- The metadata block of the result. -/
structure MetaInfo where
  fileSize : String
  duration : String
deriving DecidableEq, Repr

/-- A shot boundary (only its count is ever consumed by the scorers). -/
structure ShotInfo where
  startSec : ℚ
  endSec : ℚ
deriving DecidableEq, Repr

/-- An entity attached to a label or tracked object. -/
structure EntityInfo where
  description : Option String
deriving DecidableEq, Repr

/-- A label (or tracked object) from the vision service; entity is
optional, mirroring label.entity possibly being absent. -/
structure LabelInfo where
  entity : Option EntityInfo
deriving DecidableEq, Repr

/-- An attribute of a detected person. -/
structure PersonAttr where
  name : String
  confidence : ℚ
deriving DecidableEq, Repr

/-- A detected person with an optional attribute list. -/
structure PersonInfo where
  attributes : Option (List PersonAttr)
deriving DecidableEq, Repr

/-- The diagnostic rawData block of the result. -/
structure RawData where
  geminiResponse : String
  prompt : String
  labels : List String
  transcript : String
  shots : List ShotInfo
  textDetection : List String
  objectDetection : List String
deriving DecidableEq, Repr

/-- The full report (interface VideoAnalysisResult). -/
structure VideoAnalysisResult where
  clarity : CategoryAnalysis
  engagement : CategoryAnalysis
  relevance : CategoryAnalysis
  informativeContent : CategoryAnalysis
  visualsAndAudio : CategoryAnalysis
  presentation : CategoryAnalysis
  overallScore : ℚ
  suggestions : List String
  metadata : MetaInfo
  rawData : RawData
deriving DecidableEq, Repr

/-- Dynamic field access result[key] for the six category keys. -/
def VideoAnalysisResult.cat (r : VideoAnalysisResult) : Category → CategoryAnalysis
  | .clarity => r.clarity
  | .engagement => r.engagement
  | .relevance => r.relevance
  | .informativeContent => r.informativeContent
  | .visualsAndAudio => r.visualsAndAudio
  | .presentation => r.presentation

/-- Dynamic field update result[key] = a for the six category keys. -/
def VideoAnalysisResult.setCat (r : VideoAnalysisResult) : Category → CategoryAnalysis → VideoAnalysisResult
  | .clarity, a => { r with clarity := a }
  | .engagement, a => { r with engagement := a }
  | .relevance, a => { r with relevance := a }
  | .informativeContent, a => { r with informativeContent := a }
  | .visualsAndAudio, a => { r with visualsAndAudio := a }
  | .presentation, a => { r with presentation := a }

/-- section.score = score (geminiAnalyzer.ts line 299). -/
def setScore (r : VideoAnalysisResult) (c : Category) (x : Nat) : VideoAnalysisResult :=
  r.setCat c { r.cat c with score := x }

/-! ## Narrative response parser (processGeminiResponse) -/

/-- The leading optional markdown emphasis of the header regex: up to two
literal asterisks. Committing to the longest take is equivalent to the
regex backtracking because everything that may follow (digits, dots,
whitespace, a category name) excludes the asterisk. -/
def dropStars : List Char → List Char
  | '*' :: '*' :: rest => rest
  | '*' :: rest => rest
  | rest => rest

/-- The six alternatives of the header regex's category-name group, in
the regex's order, stored lower-case, each paired with the key the code
assigns after lower-casing and remapping the captured name
(geminiAnalyzer.ts lines 288-294). -/
def categoryNames : List (String × Category) :=
  [("clarity", Category.clarity),
   ("engagement", Category.engagement),
   ("relevance", Category.relevance),
   ("informative content", Category.informativeContent),
   ("visuals and audio quality", Category.visualsAndAudio),
   ("presentation", Category.presentation)]

/-- Case-insensitive literal prefix match: strips name (already
lower-case) from the front of cs, comparing after ASCII lowering. -/
def stripPrefixCI : List Char → List Char → Option (List Char)
  | [], rest => some rest
  | _ :: _, [] => none
  | n :: ns, c :: t => if asciiLower c == n then stripPrefixCI ns t else none

/-- First category name that matches at the current position, with the
remainder of the line. At most one alternative can match because the six
names begin with distinct letters. -/
def matchCategoryName (cs : List Char) : Option (Category × List Char) :=
  categoryNames.foldr
    (fun nc acc =>
      match stripPrefixCI nc.1.data cs with
      | some rest => some (nc.2, rest)
      | none => acc)
    none

/-- The lazy gap and score group of the header regex, scanning for the
earliest position holding a digit run that is immediately followed by
the characters /10; returns the run's value. A maximal run is forced:
a shorter take would leave a digit where the slash must be. -/
def findScore : List Char → Option Nat
  | [] => none
  | c :: t =>
    if isDigitChar c then
      if startsWithL ((c :: t).dropWhile isDigitChar) "/10".data then
        some (natOfDigits ((c :: t).takeWhile isDigitChar))
      else findScore t
    else findScore t

/-- The header test of geminiAnalyzer.ts line 286: anchored optional
emphasis, optional numbering digits, optional dots, optional whitespace,
one of the six category names (case-insensitive), then the earliest
integer-slash-ten token; yields the category key and the parsed score. -/
def headerMatch (line : String) : Option (Category × Nat) :=
  let cs0 := dropStars line.data
  let cs1 := cs0.dropWhile isDigitChar
  let cs2 := cs1.dropWhile (· == '.')
  let cs3 := cs2.dropWhile isWsChar
  match matchCategoryName cs3 with
  | none => none
  | some (c, rest) =>
    match findScore rest with
    | none => none
    | some x => some (c, x)

/-- Which bullet list is being collected (variable currentSubsection). -/
inductive PointKind where
  | good
  | improvement
deriving DecidableEq, Repr

/-- The parser's loop state: the report under construction plus the
variables currentSection, currentSubsection and collectingPoints. -/
structure ParseState where
  result : VideoAnalysisResult
  currentSection : Option Category
  currentSubsection : Option PointKind
  collectingPoints : Bool
deriving DecidableEq, Repr

/-- Bullet content: the line with its leading marker character removed
and the remainder trimmed (line.substring(1).trim()). -/
def bulletText (line : String) : String :=
  jsTrim (String.mk (line.data.drop 1))

/-- Append one bullet to the active list of category c. -/
def appendPoint (r : VideoAnalysisResult) (c : Category) (k : PointKind) (p : String) : VideoAnalysisResult :=
  match k with
  | .good => r.setCat c { r.cat c with goodPoints := (r.cat c).goodPoints ++ [p] }
  | .improvement => r.setCat c { r.cat c with improvementPoints := (r.cat c).improvementPoints ++ [p] }

/-- The bullet step of the loop (geminiAnalyzer.ts lines 325-338): only
fires when collecting is on, a section and a subsection are active, and
the line starts with a dash; the stripped text is kept unless empty or
containing the phrase overall assessment (with no colon required). -/
def processBullet (st : ParseState) (line : String) : ParseState :=
  match st.currentSection, st.currentSubsection with
  | some c, some k =>
    if st.collectingPoints && startsWithL line.data ['-'] then
      let point := bulletText line
      if point ≠ "" && !(containsStr (lowerStr point) "overall assessment") then
        { st with result := appendPoint st.result c k point }
      else st
    else st
  | _, _ => st

/-- One iteration of the parser loop (geminiAnalyzer.ts lines 278-346):
skip blank lines; a header line records the score and resets collection;
otherwise a good-points or improvement-points marker switches the
subsection; otherwise the bullet step runs, and a line mentioning
overall assessment with a colon then leaves the collecting state. -/
def processLine (st : ParseState) (raw : String) : ParseState :=
  let line := jsTrim raw
  if line = "" then st
  else
    match headerMatch line with
    | some (c, x) =>
      { st with
          result := setScore st.result c x
          currentSection := some c
          currentSubsection := none
          collectingPoints := false }
    | none =>
      if containsStr (lowerStr line) "good points:" then
        { st with currentSubsection := some PointKind.good, collectingPoints := true }
      else if containsStr (lowerStr line) "improvement points:" then
        { st with currentSubsection := some PointKind.improvement, collectingPoints := true }
      else
        let st1 := processBullet st line
        if containsStr (lowerStr line) "overall assessment:" then
          { st1 with collectingPoints := false, currentSubsection := none }
        else st1

/-- A category record before any section of the text is seen. -/
def emptyCat : CategoryAnalysis :=
  { score := 0, details := [], goodPoints := [], improvementPoints := [] }

/-- The default result structure the parser starts from
(geminiAnalyzer.ts lines 247-268). -/
def initResult (analysis : String) : VideoAnalysisResult :=
  { clarity := emptyCat
    engagement := emptyCat
    relevance := emptyCat
    informativeContent := emptyCat
    visualsAndAudio := emptyCat
    presentation := emptyCat
    overallScore := 0
    suggestions := []
    metadata := { fileSize := "", duration := "" }
    rawData :=
      { geminiResponse := analysis
        prompt := ""
        labels := []
        transcript := ""
        shots := []
        textDetection := []
        objectDetection := [] } }

/-- The parser's initial loop state. -/
def initState (analysis : String) : ParseState :=
  { result := initResult analysis
    currentSection := none
    currentSubsection := none
    collectingPoints := false }

/-- The six category records of a report, in the object's insertion
order, which is the order Object.entries walks them. -/
def sixCats (r : VideoAnalysisResult) : List CategoryAnalysis :=
  [r.clarity, r.engagement, r.relevance, r.informativeContent, r.visualsAndAudio, r.presentation]

/-- The overall-score accumulation of geminiAnalyzer.ts lines 349-357:
a walk over the entries summing the scores that are strictly positive
and counting how many there are. -/
def narrativeFold (r : VideoAnalysisResult) : ℚ × Nat :=
  (sixCats r).foldl
    (fun acc a => if 0 < a.score then (acc.1 + (a.score : ℚ), acc.2 + 1) else acc)
    (0, 0)

/-- The final overall score of the narrative parser (line 359). -/
def narrativeOverall (r : VideoAnalysisResult) : ℚ :=
  let p := narrativeFold r
  if 0 < p.2 then round1 (p.1 / (p.2 : ℚ)) else 0

/-- The report after the line loop: split into lines, trim each, run
the loop over every line. -/
def parsedResult (analysis : String) : VideoAnalysisResult :=
  (((splitNl analysis).map jsTrim).foldl processLine (initState analysis)).result

/-- processGeminiResponse: the line loop followed by filling in the
overall score. -/
def processGeminiResponse (analysis : String) : VideoAnalysisResult :=
  { parsedResult analysis with overallScore := narrativeOverall (parsedResult analysis) }

/-! ## Annotation heuristic scorer (videoAnalyzer.ts) -/

/-- The verbal engagement cue vocabulary (videoAnalyzer.ts lines
329-332 and 472-475, the same literal in both places). -/
def engagementMarkers : List String :=
  ["you can see", "let me show", "as you can see", "check this out",
   "take a look", "notice how", "what you\x27ll find", "interesting"]

/-- The relevance vocabulary (videoAnalyzer.ts line 367). -/
def relevantTopics : List String :=
  ["product", "review", "recommendation", "features", "quality", "experience", "opinion"]

/-- The informative-content vocabulary (videoAnalyzer.ts line 397), kept
as an independent copy because the source duplicates it. -/
def informativeMarkers : List String :=
  ["product", "review", "recommendation", "features", "quality", "experience", "opinion"]

/-- How many markers of a vocabulary occur in the transcript,
case-insensitively (the filter(...).length idiom of the source). -/
def markerCount (markers : List String) (transcript : String) : Nat :=
  (markers.filter (fun m => containsStr (lowerStr transcript) m)).length

/-- The distinct entity descriptions of a label list: new Set of
label.entity?.description, an absent entity or description counting as
the one value undefined. -/
def uniqueTopics (labels : List LabelInfo) : List (Option String) :=
  (labels.map (fun l => l.entity.bind EntityInfo.description)).dedup

/-- Whether some detected person carries a gesture attribute with
confidence above 0.7 (videoAnalyzer.ts lines 443-447 and 490-494). -/
def hasGestures (persons : List PersonInfo) : Bool :=
  persons.any (fun p =>
    match p.attributes with
    | some attrs => attrs.any (fun a => a.name == "gesture" && (7 / 10 : ℚ) < a.confidence)
    | none => false)

/-- analyzeAudioQuality (videoAnalyzer.ts lines 505-517): word count of
the whitespace split (which is never zero, since splitting always yields
at least one piece) and average word length as total characters over
piece count. -/
def analyzeAudioQuality (transcript : String) : Nat :=
  let wordCount := (splitWsJs transcript).length
  let avgWordLength : ℚ := (transcript.data.length : ℚ) / (wordCount : ℚ)
  if 10 < wordCount ∧ 3 < avgWordLength ∧ avgWordLength < 10 then 2
  else if 0 < wordCount then 1
  else 0

/-- analyzeClarity (videoAnalyzer.ts lines 297-321): +3 when the first
fifth of the transcript is non-empty, +2 when any on-screen text was
detected, capped at 5. The slice end index trunc(length * 0.2), computed
by the source in binary floating point, is modelled as the natural
division length / 5: the float product length * 0.2 rounds to a value
whose truncation agrees with floor(length / 5) throughout the range a
transcript length can take. -/
def analyzeClarity (transcript : String) (textDetections : List String) : CategoryAnalysis :=
  let firstPart := transcript.data.take (transcript.data.length / 5)
  let s1 := if 0 < firstPart.length then 3 else 0
  let d1 := if 0 < firstPart.length then ["Subject introduced early in the video"] else []
  let s2 := if 0 < textDetections.length then s1 + 2 else s1
  let d2 := if 0 < textDetections.length then d1 ++ ["Product name or title shown"] else d1
  { score := min s2 5, details := d2, goodPoints := [], improvementPoints := [] }

/-- analyzeEngagement (videoAnalyzer.ts lines 323-359): cue counting in
the transcript (three or more cues give 2, any cue gives 1) plus one
when any on-screen text contains a cue, capped at 5. -/
def analyzeEngagement (transcript : String) (textDetections : List String) : CategoryAnalysis :=
  let engagementCount := markerCount engagementMarkers transcript
  let s1 := if 3 ≤ engagementCount then 2 else if 0 < engagementCount then 1 else 0
  let d1 :=
    if 3 ≤ engagementCount then ["Strong viewer engagement through verbal cues"]
    else if 0 < engagementCount then ["Basic viewer engagement detected"] else []
  let engagementInText :=
    (textDetections.filter
      (fun t => engagementMarkers.any (fun m => containsStr (lowerStr t) m))).length
  let s2 := if 0 < engagementInText then s1 + 1 else s1
  let d2 := if 0 < engagementInText then d1 ++ ["Engagement detected in text"] else d1
  { score := min s2 5, details := d2, goodPoints := [], improvementPoints := [] }

/-- analyzeRelevance (videoAnalyzer.ts lines 361-389): +2 when the
transcript mentions any relevance topic, +2 when at least five distinct
label descriptions exist, capped at 5. -/
def analyzeRelevance (transcript : String) (labels : List LabelInfo) : CategoryAnalysis :=
  let relevantCount := markerCount relevantTopics transcript
  let s1 := if 0 < relevantCount then 2 else 0
  let d1 := if 0 < relevantCount then ["Relevant topics covered"] else []
  let s2 := if 5 ≤ (uniqueTopics labels).length then s1 + 2 else s1
  let d2 :=
    if 5 ≤ (uniqueTopics labels).length then d1 ++ ["Comprehensive feature coverage detected"]
    else d1
  { score := min s2 5, details := d2, goodPoints := [], improvementPoints := [] }

/-- analyzeInformativeContent (videoAnalyzer.ts lines 391-419): the same
two rules as relevance, duplicated in the source and kept duplicated
here. -/
def analyzeInformativeContent (transcript : String) (labels : List LabelInfo) : CategoryAnalysis :=
  let informativeCount := markerCount informativeMarkers transcript
  let s1 := if 0 < informativeCount then 2 else 0
  let d1 := if 0 < informativeCount then ["Informative content present"] else []
  let s2 := if 5 ≤ (uniqueTopics labels).length then s1 + 2 else s1
  let d2 :=
    if 5 ≤ (uniqueTopics labels).length then d1 ++ ["Comprehensive feature coverage detected"]
    else d1
  { score := min s2 5, details := d2, goodPoints := [], improvementPoints := [] }

/-- analyzeVisualsAndAudio (videoAnalyzer.ts lines 421-456): shot-count
thresholds, then the audio estimate added when positive, then the
gesture bonus, capped at 5. -/
def analyzeVisualsAndAudio (shots : List ShotInfo) (transcript : String) (persons : List PersonInfo) : CategoryAnalysis :=
  let s1 := if 10 ≤ shots.length then 2 else if 5 ≤ shots.length then 1 else 0
  let d1 :=
    if 10 ≤ shots.length then ["Excellent visual variety with multiple camera angles"]
    else if 5 ≤ shots.length then ["Good visual variety"] else []
  let audioQuality := analyzeAudioQuality transcript
  let s2 := if 0 < audioQuality then s1 + audioQuality else s1
  let d2 :=
    if 0 < audioQuality then d1 ++ ["Good audio quality (" ++ toString audioQuality ++ " points)"]
    else d1
  let s3 :=
    if 0 < persons.length then
      if hasGestures persons then s2 + 1 else s2
    else s2
  let d3 :=
    if 0 < persons.length then
      if hasGestures persons then d2 ++ ["Effective use of gestures and body language"] else d2
    else d2
  { score := min s3 5, details := d3, goodPoints := [], improvementPoints := [] }

/-- analyzePresentation (videoAnalyzer.ts lines 458-503): the same shot
thresholds, the engagement cue counting, and the gesture bonus, capped
at 5. -/
def analyzePresentation (shots : List ShotInfo) (transcript : String) (persons : List PersonInfo) : CategoryAnalysis :=
  let s1 := if 10 ≤ shots.length then 2 else if 5 ≤ shots.length then 1 else 0
  let d1 :=
    if 10 ≤ shots.length then ["Excellent visual variety with multiple camera angles"]
    else if 5 ≤ shots.length then ["Good visual variety"] else []
  let engagementCount := markerCount engagementMarkers transcript
  let s2 := if 3 ≤ engagementCount then s1 + 2 else if 0 < engagementCount then s1 + 1 else s1
  let d2 :=
    if 3 ≤ engagementCount then d1 ++ ["Strong viewer engagement through verbal cues"]
    else if 0 < engagementCount then d1 ++ ["Basic viewer engagement detected"] else d1
  let s3 :=
    if 0 < persons.length then
      if hasGestures persons then s2 + 1 else s2
    else s2
  let d3 :=
    if 0 < persons.length then
      if hasGestures persons then d2 ++ ["Effective use of gestures and body language"] else d2
    else d2
  { score := min s3 5, details := d3, goodPoints := [], improvementPoints := [] }

/-- The fixed aggregation weights (videoAnalyzer.ts lines 520-527), as
the list of entries Object walks in insertion order. -/
def weightsList : List (Category × ℚ) :=
  [(Category.clarity, 1), (Category.engagement, 3 / 2), (Category.relevance, 3 / 2),
   (Category.informativeContent, 3 / 2), (Category.visualsAndAudio, 2),
   (Category.presentation, 3 / 2)]

/-- calculateOverallScore (videoAnalyzer.ts lines 519-535): the reduce
over the weights summing score times weight, divided by the reduce of
the weights, rounded to one decimal. -/
def calculateOverallScore (r : VideoAnalysisResult) : ℚ :=
  let totalWeight := (weightsList.map Prod.snd).foldl (· + ·) 0
  let weightedSum := weightsList.foldl (fun sum kw => sum + ((r.cat kw.1).score : ℚ) * kw.2) 0
  round1 (weightedSum / totalWeight)

/-- generateSuggestions (videoAnalyzer.ts lines 537-560): one fixed
sentence pushed for each category whose score is below 4, in the fixed
order of the six if statements. -/
def generateSuggestions (r : VideoAnalysisResult) : List String :=
  (if r.clarity.score < 4 then
    ["Enhance the introduction with a clear purpose statement and product overview"] else []) ++
  (if r.engagement.score < 4 then
    ["Enhance viewer engagement with more visual variety and verbal cues"] else []) ++
  (if r.relevance.score < 4 then
    ["Provide more relevant and targeted content"] else []) ++
  (if r.informativeContent.score < 4 then
    ["Include more specific data points and technical details"] else []) ++
  (if r.visualsAndAudio.score < 4 then
    ["Improve visuals and audio quality"] else []) ++
  (if r.presentation.score < 4 then
    ["Enhance presentation with better visual variety and verbal cues"] else [])

/-- The result assembly of processAnalysisResults (videoAnalyzer.ts
lines 199-224): the six analyzers fill the categories, then the overall
score and the suggestions are computed from that result. The metadata
strings and the tracked objects only pass through. -/
def annotationScore (transcript : String) (shots : List ShotInfo) (labels : List LabelInfo)
    (textDetections : List String) (objects : List LabelInfo) (persons : List PersonInfo)
    (fileSize duration : String) : VideoAnalysisResult :=
  let base : VideoAnalysisResult :=
    { clarity := analyzeClarity transcript textDetections
      engagement := analyzeEngagement transcript textDetections
      relevance := analyzeRelevance transcript labels
      informativeContent := analyzeInformativeContent transcript labels
      visualsAndAudio := analyzeVisualsAndAudio shots transcript persons
      presentation := analyzePresentation shots transcript persons
      overallScore := 0
      suggestions := []
      metadata := { fileSize := fileSize, duration := duration }
      rawData :=
        { geminiResponse := ""
          prompt := ""
          labels := (labels.map (fun l => (l.entity.bind EntityInfo.description).getD "")).filter (· ≠ "")
          transcript := transcript
          shots := shots
          textDetection := textDetections
          objectDetection := (objects.map (fun o => (o.entity.bind EntityInfo.description).getD "")).filter (· ≠ "") } }
  { base with
      overallScore := calculateOverallScore base
      suggestions := generateSuggestions base }

/-! ## Specification-side definitions

These render the specification's own wording of derived quantities, to be
compared with the code-derived definitions above. -/

/-- The specification's unweighted aggregation: the arithmetic mean of
the strictly positive scores rounded to one decimal, and 0 when no score
is positive. -/
def meanOfPositive (scores : List Nat) : ℚ :=
  let pos := scores.filter (fun s => decide (0 < s))
  if pos.length = 0 then 0 else round1 ((pos.sum : ℚ) / (pos.length : ℚ))

/-- The six category scores of a report, in field order. -/
def scoresOf (r : VideoAnalysisResult) : List Nat :=
  (sixCats r).map CategoryAnalysis.score

/-- The specification's shot-count contribution: two points from ten
shots, one point from five, none below. -/
def shotContribution (n : Nat) : Nat :=
  if 10 ≤ n then 2 else if 5 ≤ n then 1 else 0

/-- The specification's gesture bonus: one point when a person list is
non-empty and some person has a confident gesture attribute. -/
def gestureContribution (persons : List PersonInfo) : Nat :=
  if 0 < persons.length ∧ hasGestures persons = true then 1 else 0

/-- The specification's engagement-cue contribution used by the
presentation category. -/
def engagementContribution (transcript : String) : Nat :=
  if 3 ≤ markerCount engagementMarkers transcript then 2
  else if 0 < markerCount engagementMarkers transcript then 1
  else 0

/-- The fixed remediation sentence of each category, as the source
writes it. -/
def suggestionFor : Category → String
  | .clarity => "Enhance the introduction with a clear purpose statement and product overview"
  | .engagement => "Enhance viewer engagement with more visual variety and verbal cues"
  | .relevance => "Provide more relevant and targeted content"
  | .informativeContent => "Include more specific data points and technical details"
  | .visualsAndAudio => "Improve visuals and audio quality"
  | .presentation => "Enhance presentation with better visual variety and verbal cues"

/-- The six categories in the fixed order the report and the suggestion
generator use. -/
def categoryOrder : List Category :=
  [Category.clarity, Category.engagement, Category.relevance,
   Category.informativeContent, Category.visualsAndAudio, Category.presentation]

/-! ## Helper lemmas about the data model -/

/-- Reading back the category just written. -/
theorem cat_setCat_same (r : VideoAnalysisResult) (c : Category) (a : CategoryAnalysis) :
    (r.setCat c a).cat c = a := by
  cases c <;> rfl

/-- Writing one category leaves every other category unchanged. -/
theorem cat_setCat_other (r : VideoAnalysisResult) {c d : Category} (a : CategoryAnalysis)
    (h : c ≠ d) : (r.setCat c a).cat d = r.cat d := by
  cases c <;> cases d <;> first
    | exact absurd rfl h
    | rfl

/-- Filling in the overall score leaves the category records unchanged. -/
theorem cat_set_overall (r : VideoAnalysisResult) (v : ℚ) (c : Category) :
    ({ r with overallScore := v } : VideoAnalysisResult).cat c = r.cat c := by
  cases c <;> rfl

/-- setScore only replaces the score of its category. -/
theorem cat_setScore_same (r : VideoAnalysisResult) (c : Category) (x : Nat) :
    (setScore r c x).cat c = { r.cat c with score := x } := by
  unfold setScore
  exact cat_setCat_same r c _

/-- setScore leaves other categories untouched. -/
theorem cat_setScore_other (r : VideoAnalysisResult) {c d : Category} (x : Nat) (h : c ≠ d) :
    (setScore r c x).cat d = r.cat d := by
  unfold setScore
  exact cat_setCat_other r _ h

/-- Appending a bullet never changes any score. -/
theorem appendPoint_score (r : VideoAnalysisResult) (c : Category) (k : PointKind) (p : String)
    (d : Category) : ((appendPoint r c k p).cat d).score = (r.cat d).score := by
  by_cases h : c = d
  · subst h
    cases k <;> simp [appendPoint, cat_setCat_same]
  · cases k <;> simp [appendPoint, cat_setCat_other r _ h]

/-- Appending a bullet leaves other categories untouched. -/
theorem appendPoint_other (r : VideoAnalysisResult) {c d : Category} (k : PointKind) (p : String)
    (h : c ≠ d) : (appendPoint r c k p).cat d = r.cat d := by
  cases k <;> simp [appendPoint, cat_setCat_other r _ h]

/-- Appending a bullet only ever appends to the good-points lists. -/
theorem appendPoint_good_grow (r : VideoAnalysisResult) (c : Category) (k : PointKind)
    (p : String) (d : Category) :
    ∃ g, ((appendPoint r c k p).cat d).goodPoints = (r.cat d).goodPoints ++ g := by
  by_cases h : c = d
  · subst h
    cases k
    · exact ⟨[p], by simp [appendPoint, cat_setCat_same]⟩
    · exact ⟨[], by simp [appendPoint, cat_setCat_same]⟩
  · exact ⟨[], by simp [appendPoint_other r k p h]⟩

/-- Appending a bullet only ever appends to the improvement-points
lists. -/
theorem appendPoint_improvement_grow (r : VideoAnalysisResult) (c : Category) (k : PointKind)
    (p : String) (d : Category) :
    ∃ g, ((appendPoint r c k p).cat d).improvementPoints = (r.cat d).improvementPoints ++ g := by
  by_cases h : c = d
  · subst h
    cases k
    · exact ⟨[], by simp [appendPoint, cat_setCat_same]⟩
    · exact ⟨[p], by simp [appendPoint, cat_setCat_same]⟩
  · exact ⟨[], by simp [appendPoint_other r k p h]⟩

/-! ## Helper lemmas about trimming -/

/-- Dropping a prefix twice is dropping it once. -/
theorem dropWhile_twice {α : Type} (p : α → Bool) (l : List α) :
    (l.dropWhile p).dropWhile p = l.dropWhile p := by
  induction l with
  | nil => simp [List.dropWhile]
  | cons c t ih =>
    by_cases h : p c
    · rw [List.dropWhile_cons, if_pos h, ih]
    · rw [List.dropWhile_cons, if_neg h, List.dropWhile_cons, if_neg h]

/-- Unfolding equation of trimR on a cons cell. -/
theorem trimR_cons (c : Char) (t : List Char) :
    trimR (c :: t) =
      if (trimR t).isEmpty then (if isWsChar c then [] else [c]) else c :: trimR t := rfl

/-- Right trimming is idempotent. -/
theorem trimR_trimR (l : List Char) : trimR (trimR l) = trimR l := by
  induction l with
  | nil => rfl
  | cons c t ih =>
    rw [trimR_cons]
    by_cases he : (trimR t).isEmpty
    · by_cases hw : isWsChar c
      · simp [he, hw, trimR]
      · simp [he, hw, trimR_cons, trimR]
    · simp [he, trimR_cons, ih]

/-- A list that left trimming fixes is still fixed after right
trimming. -/
theorem trimL_trimR (l : List Char) (h : trimL l = l) : trimL (trimR l) = trimR l := by
  cases l with
  | nil => rfl
  | cons c t =>
    have hw : isWsChar c = false := by
      by_contra hne
      have hwt : isWsChar c = true := by
        cases hcw : isWsChar c
        · exact absurd hcw hne
        · rfl
      unfold trimL at h
      rw [List.dropWhile_cons, if_pos hwt] at h
      have hlen := dropWhileLengthLe isWsChar t
      rw [h] at hlen
      simp at hlen
    rw [trimR_cons]
    by_cases he : (trimR t).isEmpty
    · rw [if_pos he, if_neg (by simp [hw])]
      unfold trimL
      rw [List.dropWhile_cons, if_neg (by simp [hw])]
    · rw [if_neg he]
      unfold trimL
      rw [List.dropWhile_cons, if_neg (by simp [hw])]

/-- JavaScript trim is idempotent, so the code trimming every line twice
is the same as trimming once. -/
theorem jsTrim_idem (s : String) : jsTrim (jsTrim s) = jsTrim s := by
  unfold jsTrim
  have h1 : trimL (trimL s.data) = trimL s.data := dropWhile_twice isWsChar s.data
  have h2 : trimL (trimR (trimL s.data)) = trimR (trimL s.data) := trimL_trimR _ h1
  show String.mk (trimR (trimL (String.mk (trimR (trimL s.data))).data)) = _
  rw [show (String.mk (trimR (trimL s.data))).data = trimR (trimL s.data) from rfl, h2, trimR_trimR]

/-! ## Step lemmas about the parser loop -/

/-- The empty line is not a header. -/
theorem headerMatch_empty : headerMatch "" = none := by decide

/-- setScore never touches a good-points list. -/
theorem setScore_goodPoints (r : VideoAnalysisResult) (c : Category) (x : Nat) (d : Category) :
    ((setScore r c x).cat d).goodPoints = (r.cat d).goodPoints := by
  by_cases h : c = d
  · subst h
    rw [cat_setScore_same]
  · rw [cat_setScore_other r x h]

/-- setScore never touches an improvement-points list. -/
theorem setScore_improvementPoints (r : VideoAnalysisResult) (c : Category) (x : Nat) (d : Category) :
    ((setScore r c x).cat d).improvementPoints = (r.cat d).improvementPoints := by
  by_cases h : c = d
  · subst h
    rw [cat_setScore_same]
  · rw [cat_setScore_other r x h]


/-- The bullet step either does nothing or appends one bullet to the
active category's active list. -/
theorem processBullet_shape (st : ParseState) (line : String) :
    processBullet st line = st ∨
    ∃ c k p, st.currentSection = some c ∧ st.currentSubsection = some k ∧
      processBullet st line = { st with result := appendPoint st.result c k p } := by
  unfold processBullet
  cases hs : st.currentSection with
  | none => exact Or.inl rfl
  | some c =>
    cases hk : st.currentSubsection with
    | none => exact Or.inl rfl
    | some k =>
      dsimp only
      by_cases hcol : (st.collectingPoints && startsWithL line.data ['-']) = true
      · rw [if_pos hcol]
        by_cases hpt : (decide (bulletText line ≠ "") &&
            !containsStr (lowerStr (bulletText line)) "overall assessment") = true
        · rw [if_pos hpt]
          exact Or.inr ⟨c, k, bulletText line, rfl, rfl, rfl⟩
        · rw [if_neg hpt]
          exact Or.inl rfl
      · rw [if_neg hcol]
        exact Or.inl rfl

/-- The bullet step never moves the active section. -/
theorem processBullet_section (st : ParseState) (line : String) :
    (processBullet st line).currentSection = st.currentSection := by
  rcases processBullet_shape st line with h | ⟨c, k, p, _, _, h⟩ <;> rw [h]

/-- A non-blank, non-header line takes one of the four non-header
branches of the loop body. -/
theorem processLine_nonheader (st : ParseState) (raw : String) (he : jsTrim raw ≠ "")
    (hm : headerMatch (jsTrim raw) = none) :
    processLine st raw = { st with currentSubsection := some PointKind.good, collectingPoints := true } ∨
    processLine st raw = { st with currentSubsection := some PointKind.improvement, collectingPoints := true } ∨
    processLine st raw =
      { processBullet st (jsTrim raw) with collectingPoints := false, currentSubsection := none } ∨
    processLine st raw = processBullet st (jsTrim raw) := by
  unfold processLine
  rw [if_neg he, hm]
  by_cases hg : containsStr (lowerStr (jsTrim raw)) "good points:" = true
  · rw [if_pos hg]
    exact Or.inl rfl
  · rw [if_neg hg]
    by_cases hi : containsStr (lowerStr (jsTrim raw)) "improvement points:" = true
    · rw [if_pos hi]
      exact Or.inr (Or.inl rfl)
    · rw [if_neg hi]
      by_cases ho : containsStr (lowerStr (jsTrim raw)) "overall assessment:" = true
      · rw [if_pos ho]
        exact Or.inr (Or.inr (Or.inl rfl))
      · rw [if_neg ho]
        exact Or.inr (Or.inr (Or.inr rfl))

/-- A blank line leaves the state untouched. -/
theorem processLine_blank (st : ParseState) (raw : String) (he : jsTrim raw = "") :
    processLine st raw = st := by
  unfold processLine
  rw [if_pos he]

/-- A header line overwrites the matched category's score, makes it the
active section and resets collection. -/
theorem processLine_header (st : ParseState) (raw : String) (c : Category) (x : Nat)
    (hm : headerMatch (jsTrim raw) = some (c, x)) :
    processLine st raw =
      { st with
          result := setScore st.result c x
          currentSection := some c
          currentSubsection := none
          collectingPoints := false } := by
  have he : jsTrim raw ≠ "" := by
    intro heq
    rw [heq, headerMatch_empty] at hm
    exact Option.noConfusion hm
  unfold processLine
  rw [if_neg he, hm]

/-- One loop iteration, classified: a header line overwrites the matched
category's score and makes it active; every other line leaves the active
section and every score alone, and at most appends one bullet. -/
theorem processLine_shape (st : ParseState) (raw : String) :
    (∃ c x, headerMatch (jsTrim raw) = some (c, x) ∧
       (processLine st raw).result = setScore st.result c x ∧
       (processLine st raw).currentSection = some c) ∨
    ((∀ c x, headerMatch (jsTrim raw) ≠ some (c, x)) ∧
       (processLine st raw).currentSection = st.currentSection ∧
       ((processLine st raw).result = st.result ∨
        ∃ c k p, st.currentSection = some c ∧ st.currentSubsection = some k ∧
          (processLine st raw).result = appendPoint st.result c k p)) := by
  by_cases he : jsTrim raw = ""
  · refine Or.inr ⟨?_, ?_, ?_⟩
    · intro c x hcx
      rw [he, headerMatch_empty] at hcx
      exact Option.noConfusion hcx
    · rw [processLine_blank st raw he]
    · exact Or.inl (by rw [processLine_blank st raw he])
  · cases hm : headerMatch (jsTrim raw) with
    | some cx =>
      obtain ⟨c, x⟩ := cx
      have hp := processLine_header st raw c x hm
      exact Or.inl ⟨c, x, rfl, by rw [hp], by rw [hp]⟩
    | none =>
      refine Or.inr ⟨?_, ?_, ?_⟩
      · intro c x hcx
        exact Option.noConfusion hcx
      · rcases processLine_nonheader st raw he hm with h | h | h | h <;>
          rw [h] <;>
          simp [processBullet_section]
      · rcases processLine_nonheader st raw he hm with h | h | h | h
        · exact Or.inl (by rw [h])
        · exact Or.inl (by rw [h])
        · rcases processBullet_shape st (jsTrim raw) with hb | ⟨c, k, p, hc, hk, hb⟩
          · exact Or.inl (by rw [h, hb])
          · exact Or.inr ⟨c, k, p, hc, hk, by rw [h, hb]⟩
        · rcases processBullet_shape st (jsTrim raw) with hb | ⟨c, k, p, hc, hk, hb⟩
          · exact Or.inl (by rw [h, hb])
          · exact Or.inr ⟨c, k, p, hc, hk, by rw [h, hb]⟩

/-! ## Fold lemmas about the parser loop -/

/-- A line that is not a header for category c cannot change c's score. -/
theorem processLine_score_stable (st : ParseState) (raw : String) (c : Category)
    (h : ∀ y, headerMatch (jsTrim raw) ≠ some (c, y)) :
    ((processLine st raw).result.cat c).score = ((st.result.cat c)).score := by
  rcases processLine_shape st raw with ⟨c', x, hm, hr, _⟩ | ⟨_, _, hres⟩
  · have hcc : c' ≠ c := fun hq => h x (hq ▸ hm)
    rw [hr, cat_setScore_other st.result x hcc]
  · rcases hres with hr | ⟨c', k, p, _, _, hr⟩
    · rw [hr]
    · rw [hr, appendPoint_score]

/-- Over a run of lines none of which is a header for category c, the
score of c never changes. -/
theorem foldl_score_stable (L : List String) (st : ParseState) (c : Category)
    (h : ∀ l ∈ L, ∀ y, headerMatch (jsTrim l) ≠ some (c, y)) :
    ((L.foldl processLine st).result.cat c).score = ((st.result.cat c)).score := by
  induction L generalizing st with
  | nil => rfl
  | cons l t ih =>
    rw [List.foldl_cons, ih (processLine st l) (fun l' hl' => h l' (List.mem_cons_of_mem _ hl'))]
    exact processLine_score_stable st l c (h l (List.mem_cons_self _ _))

/-- While category c was never the active section and the line is not a
header for c, the whole record of c is untouched and c stays inactive. -/
theorem processLine_keeps_away (st : ParseState) (raw : String) (c : Category)
    (hsec : st.currentSection ≠ some c)
    (h : ∀ y, headerMatch (jsTrim raw) ≠ some (c, y)) :
    (processLine st raw).result.cat c = st.result.cat c ∧
    (processLine st raw).currentSection ≠ some c := by
  rcases processLine_shape st raw with ⟨c', x, hm, hr, hs⟩ | ⟨_, hs, hres⟩
  · have hcc : c' ≠ c := fun hq => h x (hq ▸ hm)
    refine ⟨by rw [hr, cat_setScore_other st.result x hcc], ?_⟩
    rw [hs]
    intro hq
    exact hcc (Option.some.inj hq)
  · refine ⟨?_, by rw [hs]; exact hsec⟩
    rcases hres with hr | ⟨c', k, p, hc', _, hr⟩
    · rw [hr]
    · have hcc : c' ≠ c := fun hq => hsec (hq ▸ hc')
      rw [hr, appendPoint_other st.result k p hcc]

/-- Over a run of lines none of which is a header for category c, a c
that starts inactive stays inactive and its record is untouched. -/
theorem foldl_keeps_away (L : List String) (st : ParseState) (c : Category)
    (hsec : st.currentSection ≠ some c)
    (h : ∀ l ∈ L, ∀ y, headerMatch (jsTrim l) ≠ some (c, y)) :
    (L.foldl processLine st).result.cat c = st.result.cat c ∧
    (L.foldl processLine st).currentSection ≠ some c := by
  induction L generalizing st with
  | nil => exact ⟨rfl, hsec⟩
  | cons l t ih =>
    rw [List.foldl_cons]
    have hstep := processLine_keeps_away st l c hsec (h l (List.mem_cons_self _ _))
    have hrest := ih (processLine st l) hstep.2 (fun l' hl' => h l' (List.mem_cons_of_mem _ hl'))
    exact ⟨hrest.1.trans hstep.1, hrest.2⟩

/-- One loop iteration can only append to a good-points list. -/
theorem processLine_good_grow (st : ParseState) (raw : String) (d : Category) :
    ∃ g, ((processLine st raw).result.cat d).goodPoints = ((st.result.cat d)).goodPoints ++ g := by
  rcases processLine_shape st raw with ⟨c', x, _, hr, _⟩ | ⟨_, _, hres⟩
  · exact ⟨[], by rw [hr, setScore_goodPoints, List.append_nil]⟩
  · rcases hres with hr | ⟨c', k, p, _, _, hr⟩
    · exact ⟨[], by rw [hr, List.append_nil]⟩
    · rw [hr]
      exact appendPoint_good_grow st.result c' k p d
/-- One loop iteration can only append to an improvement-points list. -/
theorem processLine_improvement_grow (st : ParseState) (raw : String) (d : Category) :
    ∃ g, ((processLine st raw).result.cat d).improvementPoints =
      ((st.result.cat d)).improvementPoints ++ g := by
  rcases processLine_shape st raw with ⟨c', x, _, hr, _⟩ | ⟨_, _, hres⟩
  · exact ⟨[], by rw [hr, setScore_improvementPoints, List.append_nil]⟩
  · rcases hres with hr | ⟨c', k, p, _, _, hr⟩
    · exact ⟨[], by rw [hr, List.append_nil]⟩
    · rw [hr]
      exact appendPoint_improvement_grow st.result c' k p d

/-! ## The overall-score fold versus filter and sum -/

/-- The positive-score accumulation is the sum and count of the
positive scores. -/
theorem posFold_eq (l : List CategoryAnalysis) (a : ℚ) (n : Nat) :
    l.foldl (fun acc x => if 0 < x.score then (acc.1 + (x.score : ℚ), acc.2 + 1) else acc) (a, n)
      = (a + (((l.map CategoryAnalysis.score).filter (fun s => decide (0 < s))).sum : ℚ),
         n + ((l.map CategoryAnalysis.score).filter (fun s => decide (0 < s))).length) := by
  induction l generalizing a n with
  | nil => simp
  | cons x t ih =>
    by_cases h : 0 < x.score
    · rw [List.foldl_cons, if_pos h, ih]
      simp only [List.map_cons, List.filter_cons, decide_eq_true_eq, h, if_pos, List.sum_cons,
        List.length_cons, Prod.mk.injEq]
      constructor
      · push_cast
        ring
      · omega
    · rw [List.foldl_cons, if_neg h, ih]
      simp only [List.map_cons, List.filter_cons, decide_eq_true_eq, h, if_neg, Prod.mk.injEq]
      exact ⟨rfl, rfl⟩

/-- The parser's entries walk produces the filtered sum and count of
the six scores. -/
theorem narrativeFold_eq (r : VideoAnalysisResult) :
    narrativeFold r = ((((scoresOf r).filter (fun s => decide (0 < s))).sum : ℚ),
                       ((scoresOf r).filter (fun s => decide (0 < s))).length) := by
  unfold narrativeFold
  rw [posFold_eq]
  simp [scoresOf]

/-- The parser's overall score is exactly the specification's mean of
the positive category scores. -/
theorem narrativeOverall_eq (r : VideoAnalysisResult) :
    narrativeOverall r = meanOfPositive (scoresOf r) := by
  unfold narrativeOverall meanOfPositive
  rw [narrativeFold_eq]
  by_cases h : ((scoresOf r).filter (fun s => decide (0 < s))).length = 0
  · simp [h]
  · simp only [h, if_false]
    rw [if_pos (Nat.pos_of_ne_zero h)]

/-- A header line replaces the matched category's record by the same
record with the parsed score. -/
theorem processLine_header_cat (st : ParseState) (raw : String) (c : Category) (x : Nat)
    (hm : headerMatch (jsTrim raw) = some (c, x)) :
    (processLine st raw).result.cat c = { st.result.cat c with score := x } := by
  rw [processLine_header st raw c x hm]
  exact cat_setScore_same st.result c x

/-- Rounding a whole number to one decimal returns it. -/
theorem round1_natCast (n : Nat) : round1 ((n : ℚ)) = (n : ℚ) := by
  unfold round1
  have h : ((n : ℚ)) * 10 + 1 / 2 = ((10 * (n : ℤ) : ℤ) : ℚ) + 1 / 2 := by
    push_cast
    ring
  rw [h, Int.floor_int_add]
  have h2 : ⌊(1 / 2 : ℚ)⌋ = 0 := by
    rw [Int.floor_eq_zero_iff]
    constructor <;> norm_num
  rw [h2]
  push_cast
  ring

/-- The reduce over the weight entries, written out: the weighted sum of
the six scores over the total weight, rounded to one decimal. -/
theorem calculateOverallScore_eq (r : VideoAnalysisResult) :
    calculateOverallScore r =
      round1 ((1 * (r.clarity.score : ℚ) + 3 / 2 * (r.engagement.score : ℚ) +
        3 / 2 * (r.relevance.score : ℚ) + 3 / 2 * (r.informativeContent.score : ℚ) +
        2 * (r.visualsAndAudio.score : ℚ) + 3 / 2 * (r.presentation.score : ℚ)) /
        (1 + 3 / 2 + 3 / 2 + 3 / 2 + 2 + 3 / 2)) := by
  unfold calculateOverallScore weightsList
  simp only [List.map_cons, List.map_nil, List.foldl_cons, List.foldl_nil,
    VideoAnalysisResult.cat]
  congr 1
  ring

/-! ## Claim theorems -/

/-- Claim C1: when the narrative input contains a line matching the
category-header pattern with an (X/10) token, the returned report
records X as that category's score under the documented remapping of
header names to category keys; stated for the last header line of the
category, since a repeated header overwrites the score. -/
theorem claim1_header_score (text line : String) (pre post : List String) (c : Category) (x : Nat)
    (hsplit : splitNl text = pre ++ line :: post)
    (hline : headerMatch (jsTrim line) = some (c, x))
    (hpost : ∀ l ∈ post, ∀ y, headerMatch (jsTrim l) ≠ some (c, y)) :
    ((processGeminiResponse text).cat c).score = x := by
  unfold processGeminiResponse
  rw [cat_set_overall]
  unfold parsedResult
  rw [hsplit, List.map_append, List.map_cons, List.foldl_append, List.foldl_cons]
  rw [foldl_score_stable]
  · rw [processLine_header_cat _ (jsTrim line) c x (by rw [jsTrim_idem]; exact hline)]
  · intro l hl y
    obtain ⟨l0, hl0, rfl⟩ := List.mem_map.mp hl
    rw [jsTrim_idem]
    exact hpost l0 hl0 y

/-- Claim C1 witness: the input consisting of the header line Clarity
seven of ten parses to a clarity score of seven. -/
theorem claim1_witness :
    ((processGeminiResponse "**Clarity (7/10)**").cat Category.clarity).score = 7 :=
  claim1_header_score "**Clarity (7/10)**" "**Clarity (7/10)**" [] [] Category.clarity 7
    (by decide) (by decide)
    (by intro l hl y; exact absurd hl (List.not_mem_nil l))

/-- Claim C2: the parser's overall score is the arithmetic mean of the
strictly positive category scores rounded to one decimal (zero when no
score is positive), and the three-header example scoring six, eight and
four yields the score list six, zero, eight, zero, four, zero and the
overall score six. -/
theorem claim2_overall_mean :
    (∀ text, (processGeminiResponse text).overallScore =
      meanOfPositive (scoresOf (processGeminiResponse text))) ∧
    scoresOf (processGeminiResponse
      "**Clarity (6/10)**\n**Relevance (8/10)**\n**Visuals and Audio Quality (4/10)**") =
      [6, 0, 8, 0, 4, 0] ∧
    (processGeminiResponse
      "**Clarity (6/10)**\n**Relevance (8/10)**\n**Visuals and Audio Quality (4/10)**").overallScore = 6 := by
  have hpart1 : ∀ text, (processGeminiResponse text).overallScore =
      meanOfPositive (scoresOf (processGeminiResponse text)) := by
    intro text
    show narrativeOverall (parsedResult text) = _
    rw [narrativeOverall_eq]
    rfl
  refine ⟨hpart1, by decide, ?_⟩
  rw [hpart1]
  rw [show scoresOf (processGeminiResponse
      "**Clarity (6/10)**\n**Relevance (8/10)**\n**Visuals and Audio Quality (4/10)**") =
      [6, 0, 8, 0, 4, 0] from by decide]
  have h : meanOfPositive [6, 0, 8, 0, 4, 0] = round1 ((18 : ℚ) / 3) := by
    norm_num [meanOfPositive, List.filter]
  rw [h, show (18 : ℚ) / 3 = ((6 : Nat) : ℚ) from by norm_num, round1_natCast]
  norm_num

/-- Claim C3 counterexample: the narrative parser does not clamp to the
declared maximum of ten: the header Clarity fifteen of ten is recorded
as the score fifteen. -/
theorem claim3_cex :
    ((processGeminiResponse "**Clarity (15/10)**").cat Category.clarity).score = 15 ∧
    ¬ ((processGeminiResponse "**Clarity (15/10)**").cat Category.clarity).score ≤ 10 := by
  constructor <;> decide

/-- Claim C3 amended: every category score of the annotation scorer is
at most five (its declared maximum); scores are natural numbers, hence
non-negative; the narrative parser's scores carry the parsed header
integer unclamped. -/
theorem claim3_amended (transcript : String) (shots : List ShotInfo) (labels : List LabelInfo)
    (textDetections : List String) (objects : List LabelInfo) (persons : List PersonInfo)
    (fileSize duration : String) (c : Category) :
    ((annotationScore transcript shots labels textDetections objects persons
      fileSize duration).cat c).score ≤ 5 := by
  cases c <;> exact Nat.min_le_right _ 5

/-- Claim C4: for any input text, a category with no header line in the
text keeps score zero and empty good-points and improvement-points
lists (the parser is total by construction, so no input can fail). -/
theorem claim4_missing_category (text : String) (c : Category)
    (h : ∀ l ∈ splitNl text, ∀ y, headerMatch (jsTrim l) ≠ some (c, y)) :
    ((processGeminiResponse text).cat c).score = 0 ∧
    ((processGeminiResponse text).cat c).goodPoints = [] ∧
    ((processGeminiResponse text).cat c).improvementPoints = [] := by
  have hmain : (processGeminiResponse text).cat c = emptyCat := by
    unfold processGeminiResponse
    rw [cat_set_overall]
    unfold parsedResult
    have hka := foldl_keeps_away ((splitNl text).map jsTrim) (initState text) c
      (fun hq => Option.noConfusion hq)
      (by
        intro l hl y
        obtain ⟨l0, hl0, rfl⟩ := List.mem_map.mp hl
        rw [jsTrim_idem]
        exact h l0 hl0 y)
    rw [hka.1]
    cases c <;> rfl
  rw [hmain]
  exact ⟨rfl, rfl, rfl⟩

/-- Claim C4 witness: a one-line text with no header leaves clarity at
score zero with empty lists. -/
theorem claim4_witness :
    ((processGeminiResponse "hello").cat Category.clarity).score = 0 ∧
    ((processGeminiResponse "hello").cat Category.clarity).goodPoints = [] ∧
    ((processGeminiResponse "hello").cat Category.clarity).improvementPoints = [] := by
  refine claim4_missing_category "hello" Category.clarity ?_
  intro l hl y hq
  rw [show splitNl "hello" = ["hello"] from by decide] at hl
  rcases List.mem_cons.mp hl with rfl | hl0
  · rw [show headerMatch (jsTrim "hello") = none from by decide] at hq
    exact Option.noConfusion hq
  · exact absurd hl0 (List.not_mem_nil _)

/-- Claim C5 counterexample: a dash bullet whose text does not contain
the colon form overall assessment with a colon is still discarded,
because the source filters on the phrase without the colon: under an
active clarity section collecting good points, the bullet line reading
overall assessment pending is dropped. -/
theorem claim5_cex :
    containsStr (lowerStr "overall assessment pending") "overall assessment:" = false ∧
    startsWithL (jsTrim "- overall assessment pending").data ['-'] = true ∧
    (processGeminiResponse
      "**Clarity (7/10)**\nGood Points:\n- overall assessment pending").clarity.goodPoints = [] := by
  refine ⟨by decide, by decide, by decide⟩

/-- Claim C5 amended: with a category and a collection state active, a
line that is not a header or points marker and starts with the dash
marker has its stripped non-empty text appended to the active list
(good points or improvement points respectively, never the other),
unless that text contains the substring overall assessment without any
colon required. -/
theorem claim5_amended (st : ParseState) (raw : String) (c : Category) (k : PointKind)
    (hsec : st.currentSection = some c) (hsub : st.currentSubsection = some k)
    (hcol : st.collectingPoints = true)
    (hnothdr : headerMatch (jsTrim raw) = none)
    (hnotgood : containsStr (lowerStr (jsTrim raw)) "good points:" = false)
    (hnotimp : containsStr (lowerStr (jsTrim raw)) "improvement points:" = false)
    (hdash : startsWithL (jsTrim raw).data ['-'] = true)
    (hptne : bulletText (jsTrim raw) ≠ "")
    (hnoov : containsStr (lowerStr (bulletText (jsTrim raw))) "overall assessment" = false) :
    (k = PointKind.good →
      ((processLine st raw).result.cat c).goodPoints =
        ((st.result.cat c)).goodPoints ++ [bulletText (jsTrim raw)] ∧
      ((processLine st raw).result.cat c).improvementPoints =
        ((st.result.cat c)).improvementPoints) ∧
    (k = PointKind.improvement →
      ((processLine st raw).result.cat c).goodPoints = ((st.result.cat c)).goodPoints ∧
      ((processLine st raw).result.cat c).improvementPoints =
        ((st.result.cat c)).improvementPoints ++ [bulletText (jsTrim raw)]) := by
  have hne : jsTrim raw ≠ "" := by
    intro he
    rw [he] at hdash
    exact absurd hdash (by decide)
  have hpb : processBullet st (jsTrim raw) =
      { st with result := appendPoint st.result c k (bulletText (jsTrim raw)) } := by
    unfold processBullet
    rw [hsec, hsub]
    dsimp only
    rw [if_pos (by rw [hcol, hdash]; rfl)]
    rw [if_pos (by simp [hptne, hnoov])]
  have hres : (processLine st raw).result = appendPoint st.result c k (bulletText (jsTrim raw)) := by
    unfold processLine
    rw [if_neg hne, hnothdr]
    rw [if_neg (by simp [hnotgood]), if_neg (by simp [hnotimp])]
    by_cases ho : containsStr (lowerStr (jsTrim raw)) "overall assessment:" = true
    · rw [if_pos ho, hpb]
    · rw [if_neg ho, hpb]
  constructor
  · intro hk
    subst hk
    rw [hres]
    constructor <;> simp [appendPoint, cat_setCat_same]
  · intro hk
    subst hk
    rw [hres]
    constructor <;> simp [appendPoint, cat_setCat_same]

/-- Claim C5 witness: in a state collecting good points for clarity, the
bullet line containing a nice point is appended to the clarity
good-points list and not to the improvement-points list. -/
theorem claim5_witness :
    ((processLine
        { initState "w" with
            currentSection := some Category.clarity
            currentSubsection := some PointKind.good
            collectingPoints := true }
        "- Nice point").result.cat Category.clarity).goodPoints =
      ((({ initState "w" with
            currentSection := some Category.clarity
            currentSubsection := some PointKind.good
            collectingPoints := true } : ParseState).result.cat Category.clarity)).goodPoints ++
        [bulletText (jsTrim "- Nice point")] ∧
    ((processLine
        { initState "w" with
            currentSection := some Category.clarity
            currentSubsection := some PointKind.good
            collectingPoints := true }
        "- Nice point").result.cat Category.clarity).improvementPoints =
      ((({ initState "w" with
            currentSection := some Category.clarity
            currentSubsection := some PointKind.good
            collectingPoints := true } : ParseState).result.cat Category.clarity)).improvementPoints :=
  (claim5_amended _ "- Nice point" Category.clarity PointKind.good rfl rfl rfl
    (by decide) (by decide) (by decide) (by decide) (by decide) (by decide)).1 rfl

/-- The uniform report with every category scored four, used to witness
the weight-invariance of a uniform input. -/
def uniformFour : VideoAnalysisResult :=
  { clarity := { score := 4, details := [], goodPoints := [], improvementPoints := [] }
    engagement := { score := 4, details := [], goodPoints := [], improvementPoints := [] }
    relevance := { score := 4, details := [], goodPoints := [], improvementPoints := [] }
    informativeContent := { score := 4, details := [], goodPoints := [], improvementPoints := [] }
    visualsAndAudio := { score := 4, details := [], goodPoints := [], improvementPoints := [] }
    presentation := { score := 4, details := [], goodPoints := [], improvementPoints := [] }
    overallScore := 0
    suggestions := []
    metadata := { fileSize := "", duration := "" }
    rawData :=
      { geminiResponse := ""
        prompt := ""
        labels := []
        transcript := ""
        shots := []
        textDetection := []
        objectDetection := [] } }

/-- Claim C6: the annotation scorer's overall score is the weighted
average of the six category scores with the fixed weights one, three
halves, three halves, three halves, two and three halves, rounded to one
decimal; and any report whose six scores all equal four aggregates to
exactly four. -/
theorem claim6_weighted_overall :
    (∀ (transcript : String) (shots : List ShotInfo) (labels : List LabelInfo)
       (textDetections : List String) (objects : List LabelInfo) (persons : List PersonInfo)
       (fileSize duration : String),
      (annotationScore transcript shots labels textDetections objects persons
        fileSize duration).overallScore =
        round1 ((1 * ((annotationScore transcript shots labels textDetections objects persons
            fileSize duration).clarity.score : ℚ) +
          3 / 2 * ((annotationScore transcript shots labels textDetections objects persons
            fileSize duration).engagement.score : ℚ) +
          3 / 2 * ((annotationScore transcript shots labels textDetections objects persons
            fileSize duration).relevance.score : ℚ) +
          3 / 2 * ((annotationScore transcript shots labels textDetections objects persons
            fileSize duration).informativeContent.score : ℚ) +
          2 * ((annotationScore transcript shots labels textDetections objects persons
            fileSize duration).visualsAndAudio.score : ℚ) +
          3 / 2 * ((annotationScore transcript shots labels textDetections objects persons
            fileSize duration).presentation.score : ℚ)) /
          (1 + 3 / 2 + 3 / 2 + 3 / 2 + 2 + 3 / 2))) ∧
    (∀ r : VideoAnalysisResult,
      r.clarity.score = 4 → r.engagement.score = 4 → r.relevance.score = 4 →
      r.informativeContent.score = 4 → r.visualsAndAudio.score = 4 → r.presentation.score = 4 →
      calculateOverallScore r = 4) := by
  constructor
  · intro transcript shots labels textDetections objects persons fileSize duration
    exact calculateOverallScore_eq _
  · intro r h1 h2 h3 h4 h5 h6
    rw [calculateOverallScore_eq, h1, h2, h3, h4, h5, h6]
    have h : (1 * ((4 : Nat) : ℚ) + 3 / 2 * ((4 : Nat) : ℚ) + 3 / 2 * ((4 : Nat) : ℚ) +
        3 / 2 * ((4 : Nat) : ℚ) + 2 * ((4 : Nat) : ℚ) + 3 / 2 * ((4 : Nat) : ℚ)) /
        (1 + 3 / 2 + 3 / 2 + 3 / 2 + 2 + 3 / 2) = ((4 : Nat) : ℚ) := by
      norm_num
    rw [h, round1_natCast]
    norm_num

/-- Claim C6 witness: the uniform all-four report aggregates to four. -/
theorem claim6_witness : calculateOverallScore uniformFour = 4 :=
  claim6_weighted_overall.2 uniformFour rfl rfl rfl rfl rfl rfl

/-- Claim C7 counterexample: with clarity below the threshold, the
suggestion list holds the remediation sentence without a trailing
period; the period-terminated sentence the claim quotes is absent. -/
theorem claim7_cex :
    (annotationScore "" [] [] [] [] [] "" "").clarity.score < 4 ∧
    "Enhance the introduction with a clear purpose statement and product overview." ∉
      (annotationScore "" [] [] [] [] [] "" "").suggestions ∧
    "Enhance the introduction with a clear purpose statement and product overview" ∈
      (annotationScore "" [] [] [] [] [] "" "").suggestions := by
  refine ⟨by decide, by decide, by decide⟩

/-- Claim C7 amended: the suggestion list is exactly one fixed sentence
per category scoring strictly below four, in the fixed category order,
with no other entries; the clarity sentence carries no trailing
period. -/
theorem claim7_amended (r : VideoAnalysisResult) :
    generateSuggestions r =
      (categoryOrder.filter (fun c => decide ((r.cat c).score < 4))).map suggestionFor := by
  unfold generateSuggestions categoryOrder
  by_cases h1 : r.clarity.score < 4 <;> by_cases h2 : r.engagement.score < 4 <;>
    by_cases h3 : r.relevance.score < 4 <;> by_cases h4 : r.informativeContent.score < 4 <;>
    by_cases h5 : r.visualsAndAudio.score < 4 <;> by_cases h6 : r.presentation.score < 4 <;>
    simp [h1, h2, h3, h4, h5, h6, VideoAnalysisResult.cat, suggestionFor]

/-- Claim C8: the audio-quality estimate of the empty transcript is one
point, not zero: splitting the empty string on whitespace yields one
empty piece, so the word count of the empty transcript is one and the
any-words branch fires. -/
theorem claim8_empty_transcript :
    (splitWsJs "").length = 1 ∧ analyzeAudioQuality "" = 1 := by
  constructor <;> decide

/-- Claim C9: in both the visuals-and-audio and the presentation
categories the shot-count contribution is two points from ten shots,
one point from five to nine shots and zero below five, the remaining
contributions being the audio estimate or the engagement-cue count plus
the gesture bonus, all capped at five. -/
theorem claim9_shot_thresholds :
    (∀ (shots : List ShotInfo) (transcript : String) (persons : List PersonInfo),
      (analyzeVisualsAndAudio shots transcript persons).score =
        min (shotContribution shots.length + analyzeAudioQuality transcript +
          gestureContribution persons) 5 ∧
      (analyzePresentation shots transcript persons).score =
        min (shotContribution shots.length + engagementContribution transcript +
          gestureContribution persons) 5) ∧
    shotContribution 10 = 2 ∧ shotContribution 9 = 1 ∧ shotContribution 4 = 0 := by
  refine ⟨?_, by decide, by decide, by decide⟩
  intro shots transcript persons
  constructor
  · unfold analyzeVisualsAndAudio shotContribution gestureContribution
    by_cases h10 : 10 ≤ shots.length <;> by_cases h5 : 5 ≤ shots.length <;>
      by_cases ha : 0 < analyzeAudioQuality transcript <;>
      by_cases hp : 0 < persons.length <;> by_cases hg : hasGestures persons = true <;>
      simp [h10, h5, ha, hp, hg] <;> omega
  · unfold analyzePresentation shotContribution engagementContribution gestureContribution
    by_cases h10 : 10 ≤ shots.length <;> by_cases h5 : 5 ≤ shots.length <;>
      by_cases h3 : 3 ≤ markerCount engagementMarkers transcript <;>
      by_cases h0 : 0 < markerCount engagementMarkers transcript <;>
      by_cases hp : 0 < persons.length <;> by_cases hg : hasGestures persons = true <;>
      simp [h3, h0, h10, h5, hp, hg]

/-- Claim C10: a repeated header for a category overwrites its score
(last write wins) while leaving its good-points and improvement-points
lists untouched, and no loop iteration ever removes from those lists:
they only ever grow by appended bullets, so bullets collected under
every occurrence of the category accumulate in order. -/
theorem claim10_duplicate_headers :
    (∀ (st : ParseState) (raw : String) (c : Category) (x : Nat),
      headerMatch (jsTrim raw) = some (c, x) →
        ((processLine st raw).result.cat c).score = x ∧
        ((processLine st raw).result.cat c).goodPoints = ((st.result.cat c)).goodPoints ∧
        ((processLine st raw).result.cat c).improvementPoints =
          ((st.result.cat c)).improvementPoints) ∧
    (∀ (st : ParseState) (raw : String) (d : Category),
      ∃ g, ((processLine st raw).result.cat d).goodPoints = ((st.result.cat d)).goodPoints ++ g) ∧
    (∀ (st : ParseState) (raw : String) (d : Category),
      ∃ g, ((processLine st raw).result.cat d).improvementPoints =
        ((st.result.cat d)).improvementPoints ++ g) := by
  refine ⟨?_, processLine_good_grow, processLine_improvement_grow⟩
  intro st raw c x hm
  rw [processLine_header_cat st raw c x hm]
  exact ⟨rfl, rfl, rfl⟩

/-- Claim C10 witness: processing the header Engagement nine of ten sets
the engagement score to nine and leaves both point lists as they were. -/
theorem claim10_witness :
    ((processLine (initState "demo") "**Engagement (9/10)**").result.cat Category.engagement).score = 9 ∧
    ((processLine (initState "demo") "**Engagement (9/10)**").result.cat Category.engagement).goodPoints =
      (((initState "demo").result.cat Category.engagement)).goodPoints ∧
    ((processLine (initState "demo") "**Engagement (9/10)**").result.cat Category.engagement).improvementPoints =
      (((initState "demo").result.cat Category.engagement)).improvementPoints :=
  claim10_duplicate_headers.1 (initState "demo") "**Engagement (9/10)**" Category.engagement 9
    (by decide)
